import Mathlib

/-!
Shallow embedding of `factory/alchemy.py` (SQLAlchemy support for factory_boy):
the option checker `SQLAlchemyOptions._check_sqlalchemy_session_persistence`,
the helpers `attr_dict`, `find_existing`, `update_existing`, and the persistence
engine `SQLAlchemyModelFactory._create`.

Modelling conventions:
* Python attribute values are modelled by `Value` (None, bool, int, str) with
  Python truthiness and Python `==`/`!=` (bool/int cross-equality included).
* A model instance's `__dict__` is an association list `Obj` with unique keys
  (uniqueness is a hypothesis where a proof needs it, as Python dicts enforce it).
* The session is an abstract oracle: `queryFirst` models
  `session.query(model_cls).filter(col == v).first()` and `mergeFn` models the
  instance returned by `session.merge`.  Every call into the session, and the
  model-constructor call `model_class(*args, **kwargs)`, is recorded in an event
  trace so that ordering and frame ("no other session call") claims are statable.
* `_create` becomes `createRun meta mc obj`, returning the result
  (`Except` models the `RuntimeError`) together with the trace of events in
  execution order.  The constructed instance `obj` is passed in, and the point
  at which Python executes `obj = model_class(*args, **kwargs)` emits `Ev.ctor`.
-/

namespace FactoryAlchemy

/-- Python values as they occur in this module: None, booleans, ints, strings. -/
inductive Value where
  | none : Value
  | bool : Bool → Value
  | int : Int → Value
  | str : String → Value
deriving DecidableEq, Repr

/-- Python truthiness of a `Value` (`if attr:` / `if obj_attr:`). -/
def truthy : Value → Bool
  | Value.none => false
  | Value.bool b => b
  | Value.int n => n != 0
  | Value.str s => s != ""

/-- Python `==` on `Value`s, including the bool/int cross-type equality
(`True == 1`); values of other distinct types compare unequal. -/
def pyEq : Value → Value → Bool
  | Value.none, Value.none => true
  | Value.bool a, Value.bool b => a == b
  | Value.int a, Value.int b => a == b
  | Value.str a, Value.str b => a == b
  | Value.bool a, Value.int b => (if a then (1 : Int) else 0) == b
  | Value.int a, Value.bool b => a == (if b then (1 : Int) else 0)
  | _, _ => false

/-- A model instance's `__dict__`: an association list of attribute names to
values, in insertion order.  Python guarantees the keys are distinct. -/
structure Obj where
  attrs : List (String × Value)
deriving DecidableEq, Repr

/-- Python `getattr(obj, k, None)`: the first binding of `k`, defaulting to None. -/
def pygetattr (o : Obj) (k : String) : Value :=
  match o.attrs.lookup k with
  | some v => v
  | Option.none => Value.none

/-- Update the first binding of `k` in an association list, appending the
binding if the key is absent — the effect of Python `setattr` on `__dict__`. -/
def setList : List (String × Value) → String → Value → List (String × Value)
  | [], k, v => [(k, v)]
  | (k', v') :: rest, k, v =>
      if k' = k then (k, v) :: rest else (k', v') :: setList rest k v

/-- Python `setattr(existing, k, v)` on the modelled `__dict__`. -/
def setAttr (o : Obj) (k : String) (v : Value) : Obj :=
  ⟨setList o.attrs k v⟩

/-- Source `attr_dict(instance)`: the instance's `__dict__` without the
SQLAlchemy-internal keys (those starting with `_sa`).  The comprehension builds
a fresh dict, so later mutation of the instance does not affect this snapshot. -/
def attr_dict (o : Obj) : List (String × Value) :=
  o.attrs.filter (fun kv => !kv.1.startsWith "_sa")

/-- The model class's schema metadata as `find_existing` consumes it:
`constraints` is the list of unique-constraint column-key groups, in the order
the table's constraint collection yields them; `hasAttr k` tells whether
`getattr(model_cls, k, None)` yields a (truthy) queryable attribute. -/
structure ModelCls where
  constraints : List (List String)
  hasAttr : String → Bool

/-- The session oracle: `queryFirst k v` models
`session.query(model_cls).filter(matching_col == v).first()` for column key `k`,
and `mergeFn o` models the instance `session.merge(o)` returns. -/
structure Session where
  queryFirst : String → Value → Option Obj
  mergeFn : Obj → Obj

/-- Observable events of one `_create` call, in execution order. -/
inductive Ev where
  | ctor : Ev
  | query : String → Value → Ev
  | merge : Obj → Ev
  | flush : Ev
  | commit : Ev
  | add : Obj → Ev
deriving DecidableEq, Repr

/-- Session operations are every event except the model-constructor call. -/
def isSessionOp : Ev → Bool
  | Ev.ctor => false
  | _ => true

/-- Query events. -/
def isQueryEv : Ev → Bool
  | Ev.query _ _ => true
  | _ => false

/-- Source constant `SESSION_PERSISTENCE_COMMIT`. -/
def SESSION_PERSISTENCE_COMMIT : String := "commit"

/-- Source constant `SESSION_PERSISTENCE_FLUSH`. -/
def SESSION_PERSISTENCE_FLUSH : String := "flush"

/-- Source constant `SESSION_PERSISTENCE_MERGE`. -/
def SESSION_PERSISTENCE_MERGE : String := "merge"

/-- Source constant `SESSION_PERSISTENCE_CHECK_AND_MERGE`. -/
def SESSION_PERSISTENCE_CHECK_AND_MERGE : String := "check"

/-- Source constant `SESSION_PERSISTENCE_GET_OR_ADD`. -/
def SESSION_PERSISTENCE_GET_OR_ADD : String := "get"

/-- Source constant `SESSION_PERSISTENCE_ADD`. -/
def SESSION_PERSISTENCE_ADD : String := "add"

/-- Source list `VALID_SESSION_PERSISTENCE_TYPES` (None plus the six modes). -/
def VALID_SESSION_PERSISTENCE_TYPES : List (Option String) :=
  [Option.none,
   some SESSION_PERSISTENCE_COMMIT,
   some SESSION_PERSISTENCE_FLUSH,
   some SESSION_PERSISTENCE_MERGE,
   some SESSION_PERSISTENCE_CHECK_AND_MERGE,
   some SESSION_PERSISTENCE_GET_OR_ADD,
   some SESSION_PERSISTENCE_ADD]

/-- Python `repr` of a persistence-mode value (None or a string). -/
def pyRepr : Option String → String
  | Option.none => "None"
  | some s => "'" ++ s ++ "'"

/-- Python `str` of the list `VALID_SESSION_PERSISTENCE_TYPES`, as `%s` formats it. -/
def validTypesRepr : String :=
  "[" ++ String.intercalate ", " (VALID_SESSION_PERSISTENCE_TYPES.map pyRepr) ++ "]"

/-- Source `SQLAlchemyOptions._check_sqlalchemy_session_persistence`: raises
`TypeError` (modelled as `Except.error` carrying the message) when the value is
not in `VALID_SESSION_PERSISTENCE_TYPES`. `meta` is the `%s`-formatted class. -/
def checkSessionPersistence (meta : String) (value : Option String) :
    Except String Unit :=
  if value ∈ VALID_SESSION_PERSISTENCE_TYPES then Except.ok ()
  else Except.error
    (meta ++ ".sqlalchemy_session_persistence must be one of " ++ validTypesRepr
      ++ ", got " ++ pyRepr value)

/-- The resolved options `_create` reads from `cls._meta`. -/
structure Meta where
  sqlalchemy_session : Option Session
  sqlalchemy_session_persistence : Option String
  force_flush : Bool
  sqlalchemy_update_existing : Bool

/-- Inner loop of `find_existing` over one constraint's columns: skip columns
whose candidate value is falsy or which the model class does not expose; query
otherwise; return on the first row found.  Also returns the queries issued. -/
def scanCols (s : Session) (obj : Obj) (mc : ModelCls) :
    List String → Option Obj × List Ev
  | [] => (Option.none, [])
  | col :: rest =>
    let attr := pygetattr obj col
    if truthy attr && mc.hasAttr col then
      match s.queryFirst col attr with
      | some existing => (some existing, [Ev.query col attr])
      | Option.none =>
        let r := scanCols s obj mc rest
        (r.1, Ev.query col attr :: r.2)
    else scanCols s obj mc rest

/-- Outer loop of `find_existing` over the unique constraints. -/
def scanConstraints (s : Session) (obj : Obj) (mc : ModelCls) :
    List (List String) → Option Obj × List Ev
  | [] => (Option.none, [])
  | c :: rest =>
    match scanCols s obj mc c with
    | (some e, evs) => (some e, evs)
    | (Option.none, evs) =>
      let r := scanConstraints s obj mc rest
      (r.1, evs ++ r.2)

/-- Source `SQLAlchemyModelFactory.find_existing(session, obj, model_cls)`,
instrumented with the list of queries it issues. -/
def find_existing (s : Session) (obj : Obj) (mc : ModelCls) :
    Option Obj × List Ev :=
  scanConstraints s obj mc mc.constraints

/-- One iteration of the `update_existing` loop: given the snapshot entry
`kv = (k, v)` of the existing row, overwrite `existing.k` with
`obj_attr = getattr(obj, k, None)` when `obj_attr` is truthy and `obj_attr != v`. -/
def updStep (obj : Obj) (ex : Obj) (kv : String × Value) : Obj :=
  let oa := pygetattr obj kv.1
  if truthy oa && !pyEq oa kv.2 then setAttr ex kv.1 oa else ex

/-- Source `SQLAlchemyModelFactory.update_existing(session, obj, existing)`:
for each `(k, v)` in the snapshot `attr_dict(existing)`, overwrite `existing.k`
with `getattr(obj, k, None)` when that value is truthy and differs from `v`.
The `session` argument is unused in the source as well. -/
def update_existing (_s : Session) (obj existing : Obj) : Obj :=
  (attr_dict existing).foldl (updStep obj) existing

/-- The dispatch condition of the check-and-merge branch, exactly as written in
`_create`: `session_persistence in ('check', SESSION_PERSISTENCE_CHECK_AND_MERGE)`. -/
def checkAndMergeCond (sp : Option String) : Bool :=
  sp == some "check" || sp == some SESSION_PERSISTENCE_CHECK_AND_MERGE

/-- Source `SQLAlchemyModelFactory._create`, as a function of the resolved
options, the model class metadata and the instance that
`model_class(*args, **kwargs)` constructs.  Returns the result (`Except.error`
models the `RuntimeError`) and the trace of events in execution order;
`Ev.ctor` marks the constructor call. -/
def createRun (meta : Meta) (mc : ModelCls) (obj : Obj) :
    Except String Obj × List Ev :=
  let sp := if meta.force_flush then some SESSION_PERSISTENCE_FLUSH
            else meta.sqlalchemy_session_persistence
  match meta.sqlalchemy_session with
  | Option.none => (Except.error "No session provided.", [Ev.ctor])
  | some s =>
    if sp == some SESSION_PERSISTENCE_MERGE then
      (Except.ok (s.mergeFn obj), [Ev.ctor, Ev.merge obj, Ev.commit])
    else if checkAndMergeCond sp then
      match find_existing s obj mc with
      | (some existing, qevs) =>
        if meta.sqlalchemy_update_existing then
          let upd := update_existing s obj existing
          (Except.ok (s.mergeFn upd),
            Ev.ctor :: (qevs ++ [Ev.merge upd, Ev.flush]))
        else
          (Except.ok existing, Ev.ctor :: qevs)
      | (Option.none, qevs) =>
        (Except.ok (s.mergeFn obj),
          Ev.ctor :: (qevs ++ [Ev.merge obj, Ev.flush]))
    else if sp == some SESSION_PERSISTENCE_GET_OR_ADD then
      match find_existing s obj mc with
      | (some existing, qevs) =>
        (Except.ok existing, Ev.ctor :: (qevs ++ [Ev.merge existing]))
      | (Option.none, qevs) =>
        (Except.ok obj, Ev.ctor :: (qevs ++ [Ev.add obj, Ev.commit]))
    else if sp == some SESSION_PERSISTENCE_FLUSH then
      (Except.ok obj, [Ev.ctor, Ev.flush])
    else if sp == some SESSION_PERSISTENCE_COMMIT then
      (Except.ok obj, [Ev.ctor, Ev.commit])
    else if sp == some SESSION_PERSISTENCE_ADD then
      (Except.ok obj, [Ev.ctor, Ev.add obj])
    else
      (Except.ok obj, [Ev.ctor])

/-- First non-`none` element of a list of options. -/
def firstSome {α : Type} : List (Option α) → Option α
  | [] => Option.none
  | some a :: _ => some a
  | Option.none :: rest => firstSome rest

/-- A column is eligible for the deduplication lookup when the candidate's
value for it is truthy and the model class exposes a matching attribute. -/
def eligibleCol (obj : Obj) (mc : ModelCls) (col : String) : Bool :=
  truthy (pygetattr obj col) && mc.hasAttr col

/-- Characterization of the deduplication lookup, following the spec's words:
flatten the unique-constraint column groups in order, keep the eligible
columns, query each in turn, and take the first hit. -/
def dedupScanSpec (s : Session) (obj : Obj) (mc : ModelCls) : Option Obj :=
  firstSome
    ((mc.constraints.flatten.filter (eligibleCol obj mc)).map
      (fun col => s.queryFirst col (pygetattr obj col)))

/-- The field-merge contract of the spec (4.4) relating the existing row and
the updated row produced from a new instance `obj`: every non-internal
attribute of the existing row is overwritten by the new instance's value
exactly when that value is truthy and differs from the existing one, and the
internal (`_sa`-prefixed) attributes are untouched. -/
def updateRule (obj existing upd : Obj) : Prop :=
  (∀ k v, (k, v) ∈ existing.attrs → k.startsWith "_sa" = false →
      upd.attrs.lookup k =
        if (truthy (pygetattr obj k) && !pyEq (pygetattr obj k) v) = true
        then some (pygetattr obj k) else some v)
    ∧ ∀ k, k.startsWith "_sa" = true →
        upd.attrs.lookup k = existing.attrs.lookup k

/-- A trace that stays clear of merge, flush, commit and add: every event is
the constructor call or a query. -/
def queriesOnly (l : List Ev) : Prop :=
  ∀ ev ∈ l, ev = Ev.ctor ∨ isQueryEv ev = true

/-- Test fixture: a model with one unique constraint on `email`. -/
def wModel : ModelCls := ⟨[["email"]], fun k => k == "email"⟩

/-- Test fixture: a freshly built instance (truthy differing `name`, matching
`email`, falsy `nick`). -/
def wObj : Obj :=
  ⟨[("name", Value.str "new"), ("email", Value.str "a@x.com"),
    ("nick", Value.str "")]⟩

/-- Test fixture: the row already persisted for the same `email`. -/
def wExisting : Obj :=
  ⟨[("name", Value.str "old"), ("email", Value.str "a@x.com"),
    ("nick", Value.str "n"), ("_sa_instance_state", Value.int 1)]⟩

/-- Test fixture: a session whose uniqueness query always finds `wExisting`. -/
def wSessionHit : Session := ⟨fun _ _ => some wExisting, fun o => o⟩

/-- Test fixture: a session whose uniqueness query finds nothing. -/
def wSessionMiss : Session := ⟨fun _ _ => Option.none, fun o => o⟩

/-! Theorems. -/

/-- Lookup of a key present in an association list with distinct keys finds
its value. -/
theorem lookup_of_mem_nodup (l : List (String × Value)) (k : String) (v : Value)
    (hnd : (l.map Prod.fst).Nodup) (hm : (k, v) ∈ l) :
    l.lookup k = some v := by
  induction l with
  | nil => cases hm
  | cons hd tl ih =>
    obtain ⟨k₀, v₀⟩ := hd
    simp only [List.map_cons, List.nodup_cons] at hnd
    rcases List.mem_cons.mp hm with heq | hmem
    · cases heq
      simp [List.lookup]
    · have hk : (k == k₀) = false := by
        refine beq_eq_false_iff_ne.mpr ?_
        rintro rfl
        exact hnd.1 (List.mem_map.mpr ⟨(k, v), hmem, rfl⟩)
      simpa [List.lookup, hk] using ih hnd.2 hmem

/-- Lookup after `setList`: the written key reads back the new value, every
other key is unaffected. -/
theorem setList_lookup (l : List (String × Value)) (k : String) (v : Value)
    (k' : String) :
    (setList l k v).lookup k' = if k' = k then some v else l.lookup k' := by
  induction l with
  | nil =>
    by_cases h : k' = k
    · simp [setList, List.lookup, h]
    · have hb : (k' == k) = false := beq_eq_false_iff_ne.mpr h
      simp [setList, List.lookup, hb, h]
  | cons hd tl ih =>
    obtain ⟨k₀, v₀⟩ := hd
    by_cases h0 : k₀ = k
    · subst h0
      by_cases h' : k' = k₀
      · subst h'
        simp [setList, List.lookup]
      · have hb : (k' == k₀) = false := beq_eq_false_iff_ne.mpr h'
        simp [setList, List.lookup, hb, h']
    · by_cases h' : k' = k₀
      · subst h'
        have hne : ¬ k' = k := fun hh => h0 (hh ▸ rfl)
        simp [setList, h0, List.lookup, hne]
      · have hb : (k' == k₀) = false := beq_eq_false_iff_ne.mpr h'
        simp [setList, h0, List.lookup, hb, ih]

/-- Lookup after one `update_existing` iteration: the entry's key reads the
new instance's value exactly when the overwrite condition holds, every other
key is unaffected. -/
theorem updStep_lookup (obj ex : Obj) (kv : String × Value) (k : String) :
    (updStep obj ex kv).attrs.lookup k =
      if k = kv.1 ∧
          (truthy (pygetattr obj kv.1) && !pyEq (pygetattr obj kv.1) kv.2) = true
      then some (pygetattr obj kv.1) else ex.attrs.lookup k := by
  by_cases hc : (truthy (pygetattr obj kv.1) && !pyEq (pygetattr obj kv.1) kv.2) = true
  · simp [updStep, hc, setAttr, setList_lookup]
  · simp [updStep, hc]

/-- Folding the `update_existing` step over entries none of which bind `k`
leaves the lookup of `k` unchanged. -/
theorem foldl_updStep_lookup_notmem (obj : Obj) (l : List (String × Value))
    (ex : Obj) (k : String) (hk : k ∉ l.map Prod.fst) :
    ((l.foldl (updStep obj) ex).attrs.lookup k) = ex.attrs.lookup k := by
  induction l generalizing ex with
  | nil => rfl
  | cons hd tl ih =>
    simp only [List.map_cons, List.mem_cons, not_or] at hk
    rw [List.foldl_cons, ih (updStep obj ex hd) hk.2, updStep_lookup]
    simp [fun hh : k = hd.1 => hk.1 hh]

/-- Folding the `update_existing` step over a distinct-keyed snapshot that
contains `(k, v)`: the final lookup of `k` is the new instance's value when
the overwrite condition holds for `v`, otherwise the initial lookup. -/
theorem foldl_updStep_lookup_mem (obj : Obj) (l : List (String × Value))
    (ex : Obj) (k : String) (v : Value)
    (hnd : (l.map Prod.fst).Nodup) (hm : (k, v) ∈ l) :
    ((l.foldl (updStep obj) ex).attrs.lookup k) =
      if (truthy (pygetattr obj k) && !pyEq (pygetattr obj k) v) = true
      then some (pygetattr obj k) else ex.attrs.lookup k := by
  induction l generalizing ex with
  | nil => cases hm
  | cons hd tl ih =>
    obtain ⟨k₀, v₀⟩ := hd
    simp only [List.map_cons, List.nodup_cons] at hnd
    rw [List.foldl_cons]
    rcases List.mem_cons.mp hm with heq | hmem
    · cases heq
      rw [foldl_updStep_lookup_notmem obj tl _ k hnd.1, updStep_lookup]
      simp
    · have hk : k ≠ k₀ := by
        rintro rfl
        exact hnd.1 (List.mem_map.mpr ⟨(k, v), hmem, rfl⟩)
      rw [ih (updStep obj ex (k₀, v₀)) hnd.2 hmem, updStep_lookup]
      simp [hk]

/-- The source `update_existing` satisfies the field-merge contract whenever
the existing row's attribute keys are distinct (as a Python `__dict__`
guarantees): truthy differing values overwrite, falsy values never do, and
`_sa`-internal attributes are untouched. -/
theorem update_existing_rule (s : Session) (obj existing : Obj)
    (hnd : (existing.attrs.map Prod.fst).Nodup) :
    updateRule obj existing (update_existing s obj existing) := by
  have hndf : ((attr_dict existing).map Prod.fst).Nodup :=
    List.Nodup.sublist (List.Sublist.map _ (List.filter_sublist _)) hnd
  constructor
  · intro k v hm hsa
    have hmf : (k, v) ∈ attr_dict existing :=
      List.mem_filter.mpr ⟨hm, by simp [hsa]⟩
    rw [update_existing, foldl_updStep_lookup_mem obj _ _ k v hndf hmf,
      lookup_of_mem_nodup existing.attrs k v hnd hm]
  · intro k hsa
    have hkf : k ∉ (attr_dict existing).map Prod.fst := by
      intro hmem
      rcases List.mem_map.mp hmem with ⟨kv, hkv, hfst⟩
      have := (List.mem_filter.mp hkv).2
      rw [hfst] at this
      simp [hsa] at this
    rw [update_existing, foldl_updStep_lookup_notmem obj _ _ k hkf]

/-- C1 counterexample: with no session configured, `_create` does invoke the
model constructor before raising — the trace of the run is exactly `[ctor]`
followed by the runtime error, refuting the claim that the error is raised
without invoking the model constructor (the source constructs `obj` on the
line before the `session is None` check). -/
theorem no_session_ctor_runs_first_cex :
    createRun ⟨Option.none, Option.none, false, false⟩ ⟨[], fun _ => false⟩ ⟨[]⟩
      = (Except.error "No session provided.", [Ev.ctor]) := rfl

/-- C1 (amended): when no session is configured, `_create` raises the runtime
error immediately after constructing the model instance and before any session
operation: the run's trace is exactly the constructor call, then the error. -/
theorem no_session_error_after_ctor (sp : Option String) (ff upd : Bool)
    (mc : ModelCls) (obj : Obj) :
    createRun ⟨Option.none, sp, ff, upd⟩ mc obj
      = (Except.error "No session provided.", [Ev.ctor]) := rfl

/-- C2: for every persistence mode (including None/unset) and every setting of
the remaining flags, `_create` with no configured session raises the runtime
error and its trace contains no session operation (no query, merge, flush,
commit or add) — the missing session is never silently skipped. -/
theorem no_session_error_before_session_ops (sp : Option String) (ff upd : Bool)
    (mc : ModelCls) (obj : Obj) :
    (createRun ⟨Option.none, sp, ff, upd⟩ mc obj).1
        = Except.error "No session provided."
      ∧ ∀ ev ∈ (createRun ⟨Option.none, sp, ff, upd⟩ mc obj).2,
          isSessionOp ev = false := by
  refine ⟨rfl, ?_⟩
  intro ev hev
  have h : (createRun ⟨Option.none, sp, ff, upd⟩ mc obj).2 = [Ev.ctor] := rfl
  rw [h] at hev
  simp only [List.mem_singleton] at hev
  subst hev
  rfl

/-- C3: with `force_flush` set, `_create` behaves exactly — same result, same
session-call trace — as if the configured persistence mode were `flush`,
whatever mode (or none) was configured. -/
theorem force_flush_supersedes_mode (s : Option Session) (sp : Option String)
    (upd : Bool) (mc : ModelCls) (obj : Obj) :
    createRun ⟨s, sp, true, upd⟩ mc obj
      = createRun ⟨s, some SESSION_PERSISTENCE_FLUSH, false, upd⟩ mc obj := rfl

/-- C8: in mode `add` (flush not forced), `_create` performs exactly one session
operation, the add of the constructed instance — never a query, merge, flush or
commit — and returns the instance as constructed. -/
theorem add_mode_only_add (s : Session) (upd : Bool) (mc : ModelCls) (obj : Obj) :
    createRun ⟨some s, some SESSION_PERSISTENCE_ADD, false, upd⟩ mc obj
        = (Except.ok obj, [Ev.ctor, Ev.add obj])
      ∧ (createRun ⟨some s, some SESSION_PERSISTENCE_ADD, false, upd⟩ mc obj).2.filter
          isSessionOp = [Ev.add obj] := ⟨rfl, rfl⟩

/-- C9: the persistence-mode checker accepts exactly the seven values of
`VALID_SESSION_PERSISTENCE_TYPES` (None and the six mode strings), and on any
other value raises a type error whose message names the offending class and
spells out the legal value set. -/
theorem session_persistence_validation (m : String) (v : Option String) :
    VALID_SESSION_PERSISTENCE_TYPES.length = 7
      ∧ (v ∈ VALID_SESSION_PERSISTENCE_TYPES →
          checkSessionPersistence m v = Except.ok ())
      ∧ (v ∉ VALID_SESSION_PERSISTENCE_TYPES →
          checkSessionPersistence m v = Except.error
            (m ++ ".sqlalchemy_session_persistence must be one of " ++
              "[None, 'commit', 'flush', 'merge', 'check', 'get', 'add']" ++
              ", got " ++ pyRepr v)) := by
  refine ⟨rfl, ?_, ?_⟩
  · intro hv
    simp [checkSessionPersistence, hv]
  · intro hv
    simp [checkSessionPersistence, hv]
    rfl

/-- C9 witness: the checker accepts the concrete legal value `'commit'` and
rejects the concrete illegal value `'bogus'` with the full message. -/
theorem session_persistence_validation_witness :
    checkSessionPersistence "UserFactory" (some "commit") = Except.ok ()
      ∧ checkSessionPersistence "UserFactory" (some "bogus") = Except.error
          ("UserFactory" ++ ".sqlalchemy_session_persistence must be one of " ++
            "[None, 'commit', 'flush', 'merge', 'check', 'get', 'add']" ++
            ", got " ++ pyRepr (some "bogus")) :=
  ⟨(session_persistence_validation "UserFactory" (some "commit")).2.1 (by decide),
   (session_persistence_validation "UserFactory" (some "bogus")).2.2 (by decide)⟩

/-- C10: the check-and-merge dispatch condition — membership of the mode in the
pair of the literal `'check'` and `SESSION_PERSISTENCE_CHECK_AND_MERGE` — is
equivalent to the single equality test against `'check'`, because the constant
denotes that same string; no distinct alias behavior exists. -/
theorem check_alias_dispatch_eq :
    SESSION_PERSISTENCE_CHECK_AND_MERGE = "check"
      ∧ ∀ sp : Option String, checkAndMergeCond sp = (sp == some "check") := by
  refine ⟨rfl, ?_⟩
  intro sp
  simp [checkAndMergeCond, SESSION_PERSISTENCE_CHECK_AND_MERGE]

/-- Reduction of `_create` in mode `check` with update-existing set, when the
deduplication lookup finds a row. -/
theorem createRun_check_found_upd (s : Session) (mc : ModelCls)
    (obj existing : Obj) (evs : List Ev)
    (hp : find_existing s obj mc = (some existing, evs)) :
    createRun ⟨some s, some SESSION_PERSISTENCE_CHECK_AND_MERGE, false, true⟩ mc obj
      = (Except.ok (s.mergeFn (update_existing s obj existing)),
          Ev.ctor :: (evs ++ [Ev.merge (update_existing s obj existing), Ev.flush])) := by
  simp only [createRun]
  rw [hp]
  rfl

/-- Reduction of `_create` in mode `check` with update-existing unset, when the
deduplication lookup finds a row. -/
theorem createRun_check_found_noupd (s : Session) (mc : ModelCls)
    (obj existing : Obj) (evs : List Ev)
    (hp : find_existing s obj mc = (some existing, evs)) :
    createRun ⟨some s, some SESSION_PERSISTENCE_CHECK_AND_MERGE, false, false⟩ mc obj
      = (Except.ok existing, Ev.ctor :: evs) := by
  simp only [createRun]
  rw [hp]
  rfl

/-- Reduction of `_create` in mode `get` when the deduplication lookup finds a
row. -/
theorem createRun_get_found (s : Session) (u : Bool) (mc : ModelCls)
    (obj existing : Obj) (evs : List Ev)
    (hp : find_existing s obj mc = (some existing, evs)) :
    createRun ⟨some s, some SESSION_PERSISTENCE_GET_OR_ADD, false, u⟩ mc obj
      = (Except.ok existing, Ev.ctor :: (evs ++ [Ev.merge existing])) := by
  simp only [createRun]
  rw [hp]
  rfl

/-- Reduction of `_create` in mode `get` when the deduplication lookup finds
nothing. -/
theorem createRun_get_notfound (s : Session) (u : Bool) (mc : ModelCls)
    (obj : Obj) (evs : List Ev)
    (hp : find_existing s obj mc = (Option.none, evs)) :
    createRun ⟨some s, some SESSION_PERSISTENCE_GET_OR_ADD, false, u⟩ mc obj
      = (Except.ok obj, Ev.ctor :: (evs ++ [Ev.add obj, Ev.commit])) := by
  simp only [createRun]
  rw [hp]
  rfl

/-- Every event the column scan of `find_existing` emits is a query. -/
theorem scanCols_evs_query (s : Session) (obj : Obj) (mc : ModelCls)
    (cols : List String) :
    ∀ ev ∈ (scanCols s obj mc cols).2, isQueryEv ev = true := by
  induction cols with
  | nil =>
    intro ev h
    simp [scanCols] at h
  | cons col rest ih =>
    intro ev h
    by_cases hc : (truthy (pygetattr obj col) && mc.hasAttr col) = true
    · cases hq : s.queryFirst col (pygetattr obj col) with
      | some e =>
        simp [scanCols, hc, hq] at h
        subst h
        rfl
      | none =>
        simp [scanCols, hc, hq] at h
        rcases h with h | h
        · subst h
          rfl
        · exact ih ev h
    · simp [scanCols, hc] at h
      exact ih ev h

/-- Every event the constraint scan of `find_existing` emits is a query. -/
theorem scanConstraints_evs_query (s : Session) (obj : Obj) (mc : ModelCls)
    (cs : List (List String)) :
    ∀ ev ∈ (scanConstraints s obj mc cs).2, isQueryEv ev = true := by
  induction cs with
  | nil =>
    intro ev h
    simp [scanConstraints] at h
  | cons c rest ih =>
    intro ev h
    cases hsc : scanCols s obj mc c with
    | mk r evs =>
      have hq : ∀ e ∈ evs, isQueryEv e = true := by
        intro e he
        exact scanCols_evs_query s obj mc c e (by rw [hsc]; exact he)
      cases r with
      | some e =>
        simp [scanConstraints, hsc] at h
        exact hq ev h
      | none =>
        simp [scanConstraints, hsc] at h
        rcases h with h | h
        · exact hq ev h
        · exact ih ev h

/-- Every event `find_existing` emits is a query — it never merges, flushes,
commits or adds. -/
theorem find_existing_evs_query (s : Session) (obj : Obj) (mc : ModelCls) :
    ∀ ev ∈ (find_existing s obj mc).2, isQueryEv ev = true :=
  scanConstraints_evs_query s obj mc mc.constraints

/-- Appending under `firstSome`: the left list wins when it has a hit. -/
theorem firstSome_append {α : Type} (a b : List (Option α)) :
    firstSome (a ++ b) = match firstSome a with
      | some x => some x
      | Option.none => firstSome b := by
  induction a with
  | nil => rfl
  | cons hd tl ih =>
    cases hd with
    | some x => rfl
    | none => simpa [firstSome] using ih

/-- The inner loop of `find_existing` returns the first query hit over the
eligible columns of one constraint, in declared order. -/
theorem scanCols_fst (s : Session) (obj : Obj) (mc : ModelCls)
    (cols : List String) :
    (scanCols s obj mc cols).1
      = firstSome ((cols.filter (eligibleCol obj mc)).map
          (fun col => s.queryFirst col (pygetattr obj col))) := by
  induction cols with
  | nil => rfl
  | cons col rest ih =>
    by_cases hc : (truthy (pygetattr obj col) && mc.hasAttr col) = true
    · have he : eligibleCol obj mc col = true := hc
      cases hq : s.queryFirst col (pygetattr obj col) with
      | some e => simp [scanCols, hc, hq, List.filter_cons, he, firstSome]
      | none => simp [scanCols, hc, hq, List.filter_cons, he, firstSome, ih]
    · have he : eligibleCol obj mc col = false := (Bool.not_eq_true _).mp hc
      simp [scanCols, hc, List.filter_cons, he, ih]

/-- The outer loop of `find_existing` returns the first query hit over all
eligible columns of all constraints, in declaration order. -/
theorem scanConstraints_fst (s : Session) (obj : Obj) (mc : ModelCls)
    (cs : List (List String)) :
    (scanConstraints s obj mc cs).1
      = firstSome ((cs.flatten.filter (eligibleCol obj mc)).map
          (fun col => s.queryFirst col (pygetattr obj col))) := by
  induction cs with
  | nil => rfl
  | cons c rest ih =>
    cases hsc : scanCols s obj mc c with
    | mk r evs =>
      have hr : firstSome ((c.filter (eligibleCol obj mc)).map
          (fun col => s.queryFirst col (pygetattr obj col))) = r := by
        rw [← scanCols_fst s obj mc c, hsc]
      cases r with
      | some e =>
        simp [scanConstraints, hsc, List.flatten_cons, List.filter_append,
          List.map_append, firstSome_append, hr]
      | none =>
        simp [scanConstraints, hsc, List.flatten_cons, List.filter_append,
          List.map_append, firstSome_append, hr, ih]

/-- C7: the deduplication lookup `find_existing` scans the unique-constraint
column groups in order and each group's columns in declared order, skips
columns whose candidate value is falsy or which the model class does not
expose, and returns the first query hit (or no match): it equals the
flatten-filter-first-hit characterization `dedupScanSpec`. -/
theorem find_existing_first_hit (s : Session) (obj : Obj) (mc : ModelCls) :
    (find_existing s obj mc).1 = dedupScanSpec s obj mc :=
  scanConstraints_fst s obj mc mc.constraints

/-- C4: in mode `check` with update-existing enabled, when the deduplication
lookup finds an existing row, `_create` overwrites each non-internal attribute
of the existing row with the new instance's value exactly when that value is
truthy and differs (falsy values never overwrite, `_sa`-internal attributes are
untouched), merges the updated row, flushes, and returns the merge result. -/
theorem check_update_existing_merges (s : Session) (mc : ModelCls)
    (obj existing : Obj)
    (hfind : (find_existing s obj mc).1 = some existing)
    (hnd : (existing.attrs.map Prod.fst).Nodup) :
    createRun ⟨some s, some SESSION_PERSISTENCE_CHECK_AND_MERGE, false, true⟩ mc obj
        = (Except.ok (s.mergeFn (update_existing s obj existing)),
            Ev.ctor :: ((find_existing s obj mc).2
              ++ [Ev.merge (update_existing s obj existing), Ev.flush]))
      ∧ updateRule obj existing (update_existing s obj existing) := by
  have hp : find_existing s obj mc = (some existing, (find_existing s obj mc).2) := by
    rw [← hfind]
  exact ⟨createRun_check_found_upd s mc obj existing _ hp,
    update_existing_rule s obj existing hnd⟩

/-- C4 witness: the concrete fixture run — a hit on the `email` constraint
with update-existing set — merges and flushes the updated row and satisfies
the field-merge contract. -/
theorem check_update_existing_merges_witness :
    createRun ⟨some wSessionHit, some SESSION_PERSISTENCE_CHECK_AND_MERGE, false, true⟩
        wModel wObj
        = (Except.ok (wSessionHit.mergeFn (update_existing wSessionHit wObj wExisting)),
            Ev.ctor :: ((find_existing wSessionHit wObj wModel).2
              ++ [Ev.merge (update_existing wSessionHit wObj wExisting), Ev.flush]))
      ∧ updateRule wObj wExisting (update_existing wSessionHit wObj wExisting) :=
  check_update_existing_merges wSessionHit wModel wObj wExisting (by decide) (by decide)

/-- C5: in mode `check` with update-existing disabled, when the deduplication
lookup finds a matching row, `_create` returns that row unmodified and the run
performs no merge, flush, commit or add — its trace is the constructor call
and the lookup's queries only. -/
theorem check_no_update_returns_existing (s : Session) (mc : ModelCls)
    (obj existing : Obj)
    (hfind : (find_existing s obj mc).1 = some existing) :
    createRun ⟨some s, some SESSION_PERSISTENCE_CHECK_AND_MERGE, false, false⟩ mc obj
        = (Except.ok existing, Ev.ctor :: (find_existing s obj mc).2)
      ∧ queriesOnly
          (createRun ⟨some s, some SESSION_PERSISTENCE_CHECK_AND_MERGE, false, false⟩
            mc obj).2 := by
  have hp : find_existing s obj mc = (some existing, (find_existing s obj mc).2) := by
    rw [← hfind]
  have h1 := createRun_check_found_noupd s mc obj existing _ hp
  refine ⟨h1, ?_⟩
  rw [h1]
  intro ev hev
  have hev' : ev ∈ Ev.ctor :: (find_existing s obj mc).2 := hev
  rcases List.mem_cons.mp hev' with h | h
  · exact Or.inl h
  · exact Or.inr (find_existing_evs_query s obj mc ev h)

/-- C5 witness: the concrete fixture run — a hit on the `email` constraint
with update-existing unset — returns the existing row as found, with a
constructor-and-queries-only trace. -/
theorem check_no_update_returns_existing_witness :
    createRun ⟨some wSessionHit, some SESSION_PERSISTENCE_CHECK_AND_MERGE, false, false⟩
        wModel wObj
        = (Except.ok wExisting, Ev.ctor :: (find_existing wSessionHit wObj wModel).2)
      ∧ queriesOnly
          (createRun ⟨some wSessionHit, some SESSION_PERSISTENCE_CHECK_AND_MERGE, false, false⟩
            wModel wObj).2 :=
  check_no_update_returns_existing wSessionHit wModel wObj wExisting (by decide)

/-- C6: in mode `get`, a deduplication hit is merged back into the session and
returned — the new instance is never added and nothing is committed — while a
miss adds the new instance, commits, and returns it. -/
theorem get_mode_dedup (s : Session) (u : Bool) (mc : ModelCls) (obj : Obj) :
    (∀ existing, (find_existing s obj mc).1 = some existing →
      createRun ⟨some s, some SESSION_PERSISTENCE_GET_OR_ADD, false, u⟩ mc obj
          = (Except.ok existing,
              Ev.ctor :: ((find_existing s obj mc).2 ++ [Ev.merge existing]))
        ∧ Ev.add obj ∉
            (createRun ⟨some s, some SESSION_PERSISTENCE_GET_OR_ADD, false, u⟩ mc obj).2
        ∧ Ev.commit ∉
            (createRun ⟨some s, some SESSION_PERSISTENCE_GET_OR_ADD, false, u⟩ mc obj).2)
    ∧ ((find_existing s obj mc).1 = Option.none →
      createRun ⟨some s, some SESSION_PERSISTENCE_GET_OR_ADD, false, u⟩ mc obj
          = (Except.ok obj,
              Ev.ctor :: ((find_existing s obj mc).2 ++ [Ev.add obj, Ev.commit]))) := by
  constructor
  · intro existing hfind
    have hp : find_existing s obj mc = (some existing, (find_existing s obj mc).2) := by
      rw [← hfind]
    have h1 := createRun_get_found s u mc obj existing _ hp
    refine ⟨h1, ?_, ?_⟩
    · rw [h1]
      intro hmem
      have hmem' : Ev.add obj ∈
          Ev.ctor :: ((find_existing s obj mc).2 ++ [Ev.merge existing]) := hmem
      rcases List.mem_cons.mp hmem' with h | h
      · simp at h
      · rcases List.mem_append.mp h with h | h
        · have := find_existing_evs_query s obj mc _ h
          simp [isQueryEv] at this
        · simp at h
    · rw [h1]
      intro hmem
      have hmem' : Ev.commit ∈
          Ev.ctor :: ((find_existing s obj mc).2 ++ [Ev.merge existing]) := hmem
      rcases List.mem_cons.mp hmem' with h | h
      · simp at h
      · rcases List.mem_append.mp h with h | h
        · have := find_existing_evs_query s obj mc _ h
          simp [isQueryEv] at this
        · simp at h
  · intro hfind
    have hp : find_existing s obj mc = (Option.none, (find_existing s obj mc).2) := by
      rw [← hfind]
    exact createRun_get_notfound s u mc obj _ hp

/-- C6 witness: on the concrete fixture, a hit returns the exact existing row
after a merge, and a miss adds the new instance and commits. -/
theorem get_mode_dedup_witness :
    createRun ⟨some wSessionHit, some SESSION_PERSISTENCE_GET_OR_ADD, false, false⟩
        wModel wObj
        = (Except.ok wExisting,
            Ev.ctor :: ((find_existing wSessionHit wObj wModel).2 ++ [Ev.merge wExisting]))
      ∧ createRun ⟨some wSessionMiss, some SESSION_PERSISTENCE_GET_OR_ADD, false, false⟩
          wModel wObj
        = (Except.ok wObj,
            Ev.ctor :: ((find_existing wSessionMiss wObj wModel).2
              ++ [Ev.add wObj, Ev.commit])) :=
  ⟨((get_mode_dedup wSessionHit false wModel wObj).1 wExisting (by decide)).1,
   (get_mode_dedup wSessionMiss false wModel wObj).2 (by decide)⟩

end FactoryAlchemy
